import Mathlib

/-!
Shallow embedding of `src/gui/dbsettings/DatabaseSettingsWidgetDatabaseKey.cpp`
(KeePassXC database-key settings panel), restricted to the credential
composition and validation workflow: `saveSettings`, the two
`addToCompositeKey` overloads, `markDirty`, the field-reset helper
(`initialize` in the source) and `discard`.  GUI plumbing (layout, focus,
signal wiring) is not modelled.  External collaborators (message boxes,
`Database::setKey`, quick-unlock reset, `markAsModified`, the
`editFinished` signal) are modelled as an emitted event trace.

The build is with `WITH_XC_YUBIKEY` defined, so the challenge-response
component participates exactly as in the source.
-/

set_option maxHeartbeats 1000000

namespace KpxcDbKey

/-- `KeyComponentWidget::Page`: the visible page of one key-component widget. -/
inductive Page where
  | Edit
  | LeaveOrRemove
  | AddNew
deriving DecidableEq

/-- Type identifier (static UUID) of a factor key, used by the snapshot loops
to match `PasswordKey::UUID` and `FileKey::UUID`. -/
inductive KeyUuid where
  | password
  | file
  | other
deriving DecidableEq

/-- A factor key.  `refId` models the identity of the underlying
`QSharedPointer<Key>` object, so reference (identity) equality of shared key
material is structural equality of this record. -/
structure Key where
  uuid : KeyUuid
  refId : Nat
deriving DecidableEq

/-- A challenge-response factor.  `matchesCRUuid` models
`key->uuid() == ChallengeResponseKey::UUID`; `refId` is the shared-pointer
identity as for `Key`. -/
structure ChallengeResponseKey where
  matchesCRUuid : Bool
  refId : Nat
deriving DecidableEq

/-- A composite key: an ordered list of factor keys plus a separate list of
challenge-response factors, as exposed by `CompositeKey::keys()` and
`CompositeKey::challengeResponseKeys()`. -/
structure CompositeKey where
  keys : List Key
  challengeResponseKeys : List ChallengeResponseKey
deriving DecidableEq

/-- Modelled from the spec: `CompositeKey::addKey` attaches an existing factor
key to the composite key by reference, with no re-derivation
(`keys/CompositeKey.cpp` is not under review; the spec describes the builder
as accumulating factor keys). -/
def CompositeKey.addKey (ck : CompositeKey) (k : Key) : CompositeKey :=
  { ck with keys := ck.keys ++ [k] }

/-- Modelled from the spec: `CompositeKey::addChallengeResponseKey` attaches an
existing challenge-response factor by reference (same source caveat as
`CompositeKey.addKey`). -/
def CompositeKey.addChallengeResponseKey (ck : CompositeKey) (k : ChallengeResponseKey) :
    CompositeKey :=
  { ck with challengeResponseKeys := ck.challengeResponseKeys ++ [k] }

/-- Modelled from the spec: observable state of one `KeyComponentWidget`
(`gui/databasekey/*.cpp` is not under review).  `page` is `visiblePage()`,
`empty` is `isEmpty()`, `added` is the component-added flag set by
`setComponentAdded`, `validateOk` is the result of `validate(error)`,
`addOk` is the result of the widget's own `addToCompositeKey`,
`passwordQuality` is `getPasswordQuality()` on the 0-4 ordinal scale, and
`newFactorId` is the identity of the freshly derived factor the widget
contributes when it is in `Edit` state. -/
structure KeyComponentWidget where
  page : Page
  empty : Bool
  added : Bool
  validateOk : Bool
  addOk : Bool
  passwordQuality : Nat
  newFactorId : Nat
deriving DecidableEq

/-- The database as seen from this widget: `m_db->key()` (a possibly null
shared pointer, hence `Option`) and `m_db->publicUuid()`. -/
structure DbState where
  key : Option CompositeKey
  publicUuid : Nat
deriving DecidableEq

/-- State of the settings widget: the three key-component widgets, the
session dirty flag `m_isDirty`, and the database handle `m_db`. -/
structure SettingsState where
  passwordWidget : KeyComponentWidget
  keyFileWidget : KeyComponentWidget
  yubiKeyWidget : KeyComponentWidget
  isDirty : Bool
  db : DbState
deriving DecidableEq

/-- Per-save-attempt environment: the configured minimum password quality
(`Config::Security_DatabasePasswordMinimumQuality`, an arbitrary integer
before clamping) and the user's answers to the two modal confirmations. -/
structure SaveEnv where
  minQualityConfig : Int
  acceptNoPassword : Bool
  continueWeak : Bool
deriving DecidableEq

/-- Observable calls into external collaborators, in program order.
`msgNoPassword` carries whether Cancel was installed as the default button. -/
inductive Event where
  | msgNoPassword (defaultIsCancel : Bool)
  | componentError
  | msgWeakPasswordCritical
  | msgWeakPasswordWarning
  | msgNoEncryptionKey
  | setKey (k : CompositeKey) (isKeyChange keepOldTransform keepOldBackup : Bool)
  | quickUnlockReset (uuid : Nat)
  | editFinished (committed : Bool)
  | markAsModified
deriving DecidableEq

/-- Result of one `saveSettings` call: the returned boolean, the widget state
after the call, and the emitted event trace. -/
structure SaveResult where
  ret : Bool
  state : SettingsState
  events : List Event
deriving DecidableEq

/-- Qt's `qBound(lo, v, hi) = qMax(lo, qMin(hi, v))`. -/
def qBound (lo v hi : Int) : Int := max lo (min hi v)

/-- Modelled from the spec: the `PasswordHealth::Quality::Good` threshold on
the 0-4 ordinal scale Poor/Weak/Good/Strong/Excellent (`core/PasswordHealth.h`
is not under review). -/
def goodQuality : Nat := 2

/-- The three `m_isDirty |= (widget->visiblePage() == Edit)` lines at the top
of `saveSettings`. -/
def computeDirty (s : SettingsState) : Bool :=
  s.isDirty || (s.passwordWidget.page == Page.Edit) || (s.keyFileWidget.page == Page.Edit)
    || (s.yubiKeyWidget.page == Page.Edit)

/-- The key-unchanged short-circuit condition
`m_db->key() && !m_db->key()->keys().isEmpty() && !m_isDirty` (with
`m_isDirty` already updated by the `|=` lines). -/
def shortCircuits (s : SettingsState) : Bool :=
  (match s.db.key with
   | some ck => !ck.keys.isEmpty
   | none => false) && !(computeDirty s)

/-- The snapshot loop over `m_db->key()->keys()`: each matching key overwrites
the local variable, so the last match wins. -/
def lastWithUuid (ks : List Key) (u : KeyUuid) : Option Key :=
  ks.foldl (fun acc k => if k.uuid = u then some k else acc) none

/-- The snapshot loop over `m_db->key()->challengeResponseKeys()`. -/
def lastCR (ks : List ChallengeResponseKey) : Option ChallengeResponseKey :=
  ks.foldl (fun acc k => if k.matchesCRUuid then some k else acc) none

/-- `DatabaseSettingsWidgetDatabaseKey::addToCompositeKey` (the `Key`
overload).  `contrib` is the fresh factor the widget would contribute in
`Edit` state (each widget subclass contributes a factor of its own kind).
Returns `none` on the `Q_ASSERT(oldKey)` programmer-error path
(`LeaveOrRemove` with no matching old factor). -/
def addToCompositeKeyW (w : KeyComponentWidget) (contrib : Key) (newKey : CompositeKey)
    (oldKey : Option Key) : Option (Bool × CompositeKey × List Event) :=
  match w.page with
  | Page.Edit =>
      if w.validateOk && w.addOk then some (true, newKey.addKey contrib, [])
      else some (false, newKey, [Event.componentError])
  | Page.LeaveOrRemove =>
      match oldKey with
      | some k => some (true, newKey.addKey k, [])
      | none => none
  | Page.AddNew => some (true, newKey, [])

/-- `DatabaseSettingsWidgetDatabaseKey::addToCompositeKey` (the
`ChallengeResponseKey` overload). -/
def addToCompositeKeyCR (w : KeyComponentWidget) (contrib : ChallengeResponseKey)
    (newKey : CompositeKey) (oldKey : Option ChallengeResponseKey) :
    Option (Bool × CompositeKey × List Event) :=
  match w.page with
  | Page.Edit =>
      if w.validateOk && w.addOk then some (true, newKey.addChallengeResponseKey contrib, [])
      else some (false, newKey, [Event.componentError])
  | Page.LeaveOrRemove =>
      match oldKey with
      | some k => some (true, newKey.addChallengeResponseKey k, [])
      | none => none
  | Page.AddNew => some (true, newKey, [])

/-- `DatabaseSettingsWidgetDatabaseKey::initialize`: reset all three
component-added flags to false; `m_isDirty` and the database are untouched. -/
def resetFields (s : SettingsState) : SettingsState :=
  { s with passwordWidget := { s.passwordWidget with added := false },
           keyFileWidget := { s.keyFileWidget with added := false },
           yubiKeyWidget := { s.yubiKeyWidget with added := false } }

/-- The tail of the event trace on the success path of `saveSettings`:
`m_db->setKey(newKey, true, false, false)`, the quick-unlock reset keyed by
the database public UUID, `editFinished(true)`, and `markAsModified` exactly
when the dirty flag is set. -/
def commitSuffix (s1 : SettingsState) (nk : CompositeKey) : List Event :=
  [Event.setKey nk true false false,
   Event.quickUnlockReset s1.db.publicUuid,
   Event.editFinished true]
    ++ (if s1.isDirty then [Event.markAsModified] else [])

/-- Lines 220-241 of the source: the zero-factor invariant check followed by
the commit sequence (on success the fields are reset via `initialize`). -/
def commitPhase (s1 : SettingsState) (nk : CompositeKey) (evs : List Event) :
    Option SaveResult :=
  if nk.keys.isEmpty && nk.challengeResponseKeys.isEmpty then
    some ⟨false, s1, evs ++ [Event.msgNoEncryptionKey]⟩
  else some ⟨true, resetFields s1, evs ++ commitSuffix s1 nk⟩

/-- The `addToCompositeKey(m_yubiKeyEditWidget, ...)` step followed by the
rest of `saveSettings`. -/
def yubiPhase (s1 : SettingsState) (oldCR : Option ChallengeResponseKey) (nk : CompositeKey)
    (evs : List Event) : Option SaveResult :=
  match addToCompositeKeyCR s1.yubiKeyWidget ⟨true, s1.yubiKeyWidget.newFactorId⟩ nk oldCR with
  | none => none
  | some (ok, nk2, e2) =>
      if ok then commitPhase s1 nk2 (evs ++ e2) else some ⟨false, s1, evs ++ e2⟩

/-- The `addToCompositeKey(m_keyFileEditWidget, ...)` step followed by the
rest of `saveSettings`. -/
def keyFilePhase (s1 : SettingsState) (oldFile : Option Key)
    (oldCR : Option ChallengeResponseKey) (nk : CompositeKey) (evs : List Event) :
    Option SaveResult :=
  match addToCompositeKeyW s1.keyFileWidget ⟨KeyUuid.file, s1.keyFileWidget.newFactorId⟩ nk
      oldFile with
  | none => none
  | some (ok, nk2, e2) =>
      if ok then yubiPhase s1 oldCR nk2 (evs ++ e2) else some ⟨false, s1, evs ++ e2⟩

/-- Lines 182-208 of the source: the password quality gate, run whenever
`isEmpty()` is false: hard rejection strictly below the clamped configured
minimum, then the advisory weak-password warning strictly below `Good`. -/
def qualityPhase (s1 : SettingsState) (env : SaveEnv) (oldFile : Option Key)
    (oldCR : Option ChallengeResponseKey) (nk : CompositeKey) (evs : List Event) :
    Option SaveResult :=
  if !s1.passwordWidget.empty then
    if s1.passwordWidget.passwordQuality < (qBound 0 env.minQualityConfig 4).toNat then
      some ⟨false, s1, evs ++ [Event.msgWeakPasswordCritical]⟩
    else if s1.passwordWidget.passwordQuality < goodQuality then
      if env.continueWeak then
        keyFilePhase s1 oldFile oldCR nk (evs ++ [Event.msgWeakPasswordWarning])
      else some ⟨false, s1, evs ++ [Event.msgWeakPasswordWarning]⟩
    else keyFilePhase s1 oldFile oldCR nk evs
  else keyFilePhase s1 oldFile oldCR nk evs

/-- Lines 162-180 of the source: the no-password confirmation (shown when the
password page is `AddNew` or the input is empty; Cancel is the default
button) or, otherwise, the password component's contribution; followed by the
rest of `saveSettings`. -/
def passwordPhase (s1 : SettingsState) (env : SaveEnv) (oldPw oldFile : Option Key)
    (oldCR : Option ChallengeResponseKey) : Option SaveResult :=
  if s1.passwordWidget.page == Page.AddNew || s1.passwordWidget.empty then
    if env.acceptNoPassword then
      qualityPhase s1 env oldFile oldCR ⟨[], []⟩ [Event.msgNoPassword true]
    else some ⟨false, s1, [Event.msgNoPassword true]⟩
  else
    match addToCompositeKeyW s1.passwordWidget
        ⟨KeyUuid.password, s1.passwordWidget.newFactorId⟩ ⟨[], []⟩ oldPw with
    | none => none
    | some (ok, nk, e2) =>
        if ok then qualityPhase s1 env oldFile oldCR nk e2
        else some ⟨false, s1, e2⟩

/-- `DatabaseSettingsWidgetDatabaseKey::saveSettings`.  Returns `none` when
the C++ dereferences a null `m_db->key()` (the snapshot loops run
unconditionally once the short-circuit is not taken), or on the
`Q_ASSERT(oldKey)` programmer-error path. -/
def saveSettings (s : SettingsState) (env : SaveEnv) : Option SaveResult :=
  if shortCircuits s then some ⟨true, { s with isDirty := computeDirty s }, []⟩
  else
    match s.db.key with
    | none => none
    | some oldCk =>
        passwordPhase { s with isDirty := computeDirty s } env
          (lastWithUuid oldCk.keys KeyUuid.password)
          (lastWithUuid oldCk.keys KeyUuid.file) (lastCR oldCk.challengeResponseKeys)

/-- `DatabaseSettingsWidgetDatabaseKey::markDirty`. -/
def markDirty (s : SettingsState) : SettingsState := { s with isDirty := true }

/-- `DatabaseSettingsWidgetDatabaseKey::discard`: reset the fields and emit
`editFinished(false)`. -/
def discard (s : SettingsState) : SettingsState × List Event :=
  (resetFields s, [Event.editFinished false])

/-- Events that may precede the final outcome of a save attempt: the two
accepted confirmations. -/
def benign : Event → Bool
  | Event.msgNoPassword _ => true
  | Event.msgWeakPasswordWarning => true
  | _ => false

/-- Events that can terminate a failed save attempt. -/
def abortEvent : Event → Bool
  | Event.msgNoPassword _ => true
  | Event.componentError => true
  | Event.msgWeakPasswordCritical => true
  | Event.msgWeakPasswordWarning => true
  | Event.msgNoEncryptionKey => true
  | _ => false

/-- Recognizer for the key-installer call. -/
def Event.isSetKey : Event → Bool
  | Event.setKey _ _ _ _ => true
  | _ => false

/-- Recognizer for the quick-unlock reset call. -/
def Event.isReset : Event → Bool
  | Event.quickUnlockReset _ => true
  | _ => false

/-- Canonical shape of the outcome of the post-short-circuit part of
`saveSettings`, relative to the events `evs` already emitted: either a
commit (some accepted confirmations, then the commit sequence for a
non-empty new key, fields reset) or an abort (some accepted confirmations,
then one abort event, state otherwise untouched). -/
def PhaseOut (s1 : SettingsState) (evs : List Event) (out : SaveResult) : Prop :=
  (out.ret = true ∧ out.state = resetFields s1 ∧
    ∃ mid nk, (∀ e ∈ mid, benign e = true) ∧
      (nk.keys ≠ [] ∨ nk.challengeResponseKeys ≠ []) ∧
      out.events = evs ++ (mid ++ commitSuffix s1 nk)) ∨
  (out.ret = false ∧ out.state = s1 ∧
    ∃ mid e, (∀ x ∈ mid, benign x = true) ∧ abortEvent e = true ∧
      out.events = evs ++ (mid ++ [e]))

theorem benign_not_special {e : Event} (h : benign e = true) :
    Event.isSetKey e = false ∧ Event.isReset e = false ∧ e ≠ Event.msgNoEncryptionKey ∧
    e ≠ Event.markAsModified ∧ ∀ b, e ≠ Event.editFinished b := by
  cases e <;> simp_all [benign, Event.isSetKey, Event.isReset]

theorem abort_not_special {e : Event} (h : abortEvent e = true) :
    Event.isSetKey e = false ∧ Event.isReset e = false := by
  cases e <;> simp_all [abortEvent, Event.isSetKey, Event.isReset]

theorem mem_commitSuffix {s1 : SettingsState} {nk : CompositeKey} {e : Event} :
    e ∈ commitSuffix s1 nk ↔
      e = Event.setKey nk true false false ∨ e = Event.quickUnlockReset s1.db.publicUuid ∨
      e = Event.editFinished true ∨ (s1.isDirty = true ∧ e = Event.markAsModified) := by
  unfold commitSuffix
  cases hd : s1.isDirty <;> simp [hd, or_assoc]

theorem PhaseOut.absorb {s1 : SettingsState} {evs d : List Event} {out : SaveResult}
    (hd : ∀ e ∈ d, benign e = true) (h : PhaseOut s1 (evs ++ d) out) : PhaseOut s1 evs out := by
  rcases h with ⟨h1, h2, mid, nk, hm, hnk, he⟩ | ⟨h1, h2, mid, e, hm, ha, he⟩
  · refine Or.inl ⟨h1, h2, d ++ mid, nk, ?_, hnk, ?_⟩
    · intro x hx
      rcases List.mem_append.mp hx with hx | hx
      exacts [hd x hx, hm x hx]
    · simpa [List.append_assoc] using he
  · refine Or.inr ⟨h1, h2, d ++ mid, e, ?_, ha, ?_⟩
    · intro x hx
      rcases List.mem_append.mp hx with hx | hx
      exacts [hd x hx, hm x hx]
    · simpa [List.append_assoc] using he

theorem PhaseOut.extend {s1 : SettingsState} {evs : List Event} {out : SaveResult}
    (h : PhaseOut s1 evs out) : ∃ tail, out.events = evs ++ tail := by
  rcases h with ⟨_, _, mid, nk, _, _, he⟩ | ⟨_, _, mid, e, _, _, he⟩
  · exact ⟨mid ++ commitSuffix s1 nk, he⟩
  · exact ⟨mid ++ [e], he⟩

theorem addW_cases {w : KeyComponentWidget} {contrib : Key} {nk : CompositeKey}
    {old : Option Key} {res : Bool × CompositeKey × List Event}
    (h : addToCompositeKeyW w contrib nk old = some res) :
    (w.page = Page.Edit ∧ w.validateOk = true ∧ w.addOk = true ∧
      res = (true, nk.addKey contrib, [])) ∨
    (res = (false, nk, [Event.componentError])) ∨
    (∃ k, old = some k ∧ w.page = Page.LeaveOrRemove ∧ res = (true, nk.addKey k, [])) ∨
    (w.page = Page.AddNew ∧ res = (true, nk, [])) := by
  cases hp : w.page with
  | Edit =>
      simp only [addToCompositeKeyW, hp] at h
      by_cases hva : (w.validateOk && w.addOk) = true
      · rw [if_pos hva] at h
        obtain ⟨hv, ha⟩ := Bool.and_eq_true _ _ |>.mp hva
        exact Or.inl ⟨rfl, hv, ha, (Option.some.inj h).symm⟩
      · rw [if_neg hva] at h
        exact Or.inr (Or.inl (Option.some.inj h).symm)
  | LeaveOrRemove =>
      simp only [addToCompositeKeyW, hp] at h
      cases hk : old with
      | none => rw [hk] at h; cases h
      | some kk =>
          rw [hk] at h
          exact Or.inr (Or.inr (Or.inl ⟨kk, rfl, rfl, (Option.some.inj h).symm⟩))
  | AddNew =>
      simp only [addToCompositeKeyW, hp] at h
      exact Or.inr (Or.inr (Or.inr ⟨rfl, (Option.some.inj h).symm⟩))

theorem addCR_cases {w : KeyComponentWidget} {contrib : ChallengeResponseKey}
    {nk : CompositeKey} {old : Option ChallengeResponseKey}
    {res : Bool × CompositeKey × List Event}
    (h : addToCompositeKeyCR w contrib nk old = some res) :
    (w.page = Page.Edit ∧ w.validateOk = true ∧ w.addOk = true ∧
      res = (true, nk.addChallengeResponseKey contrib, [])) ∨
    (res = (false, nk, [Event.componentError])) ∨
    (∃ k, old = some k ∧ w.page = Page.LeaveOrRemove ∧
      res = (true, nk.addChallengeResponseKey k, [])) ∨
    (w.page = Page.AddNew ∧ res = (true, nk, [])) := by
  cases hp : w.page with
  | Edit =>
      simp only [addToCompositeKeyCR, hp] at h
      by_cases hva : (w.validateOk && w.addOk) = true
      · rw [if_pos hva] at h
        obtain ⟨hv, ha⟩ := Bool.and_eq_true _ _ |>.mp hva
        exact Or.inl ⟨rfl, hv, ha, (Option.some.inj h).symm⟩
      · rw [if_neg hva] at h
        exact Or.inr (Or.inl (Option.some.inj h).symm)
  | LeaveOrRemove =>
      simp only [addToCompositeKeyCR, hp] at h
      cases hk : old with
      | none => rw [hk] at h; cases h
      | some kk =>
          rw [hk] at h
          exact Or.inr (Or.inr (Or.inl ⟨kk, rfl, rfl, (Option.some.inj h).symm⟩))
  | AddNew =>
      simp only [addToCompositeKeyCR, hp] at h
      exact Or.inr (Or.inr (Or.inr ⟨rfl, (Option.some.inj h).symm⟩))

theorem commitPhase_shape {s1 : SettingsState} {nk : CompositeKey} {evs : List Event}
    {out : SaveResult} (h : commitPhase s1 nk evs = some out) : PhaseOut s1 evs out := by
  unfold commitPhase at h
  split at h
  · obtain rfl := Option.some.inj h
    exact Or.inr ⟨rfl, rfl, [], Event.msgNoEncryptionKey, by simp, rfl, by simp⟩
  · rename_i hcond
    obtain rfl := Option.some.inj h
    have hnk : nk.keys ≠ [] ∨ nk.challengeResponseKeys ≠ [] := by
      by_contra hcontra
      push_neg at hcontra
      simp [hcontra.1, hcontra.2] at hcond
    exact Or.inl ⟨rfl, rfl, [], nk, by simp, hnk, by simp⟩

theorem yubiPhase_shape {s1 : SettingsState} {oldCR : Option ChallengeResponseKey}
    {nk : CompositeKey} {evs : List Event} {out : SaveResult}
    (h : yubiPhase s1 oldCR nk evs = some out) : PhaseOut s1 evs out := by
  unfold yubiPhase at h
  cases hcr : addToCompositeKeyCR s1.yubiKeyWidget ⟨true, s1.yubiKeyWidget.newFactorId⟩ nk
      oldCR with
  | none => rw [hcr] at h; cases h
  | some res =>
      rw [hcr] at h
      obtain ⟨ok, nk2, e2⟩ := res
      rcases addCR_cases hcr with ⟨_, _, _, hres⟩ | hres | ⟨k, _, _, hres⟩ | ⟨_, hres⟩ <;>
        simp only [Prod.mk.injEq] at hres
      · obtain ⟨rfl, rfl, rfl⟩ := hres
        simp only [if_true] at h
        simpa using commitPhase_shape h
      · obtain ⟨rfl, rfl, rfl⟩ := hres
        simp only [Bool.false_eq_true, if_false] at h
        obtain rfl := Option.some.inj h
        exact Or.inr ⟨rfl, rfl, [], Event.componentError, by simp, rfl, by simp⟩
      · obtain ⟨rfl, rfl, rfl⟩ := hres
        simp only [if_true] at h
        simpa using commitPhase_shape h
      · obtain ⟨rfl, rfl, rfl⟩ := hres
        simp only [if_true] at h
        simpa using commitPhase_shape h

theorem addW_out {w : KeyComponentWidget} {contrib : Key} {nk : CompositeKey}
    {old : Option Key} {ok : Bool} {nk2 : CompositeKey} {e2 : List Event}
    (h : addToCompositeKeyW w contrib nk old = some (ok, nk2, e2)) :
    (ok = true ∧ e2 = []) ∨ (ok = false ∧ nk2 = nk ∧ e2 = [Event.componentError]) := by
  rcases addW_cases h with ⟨_, _, _, hres⟩ | hres | ⟨kk, _, _, hres⟩ | ⟨_, hres⟩ <;>
    simp only [Prod.mk.injEq] at hres
  · exact Or.inl ⟨hres.1, hres.2.2⟩
  · exact Or.inr ⟨hres.1, hres.2.1, hres.2.2⟩
  · exact Or.inl ⟨hres.1, hres.2.2⟩
  · exact Or.inl ⟨hres.1, hres.2.2⟩

theorem addCR_out {w : KeyComponentWidget} {contrib : ChallengeResponseKey}
    {nk : CompositeKey} {old : Option ChallengeResponseKey} {ok : Bool}
    {nk2 : CompositeKey} {e2 : List Event}
    (h : addToCompositeKeyCR w contrib nk old = some (ok, nk2, e2)) :
    (ok = true ∧ e2 = []) ∨ (ok = false ∧ nk2 = nk ∧ e2 = [Event.componentError]) := by
  rcases addCR_cases h with ⟨_, _, _, hres⟩ | hres | ⟨kk, _, _, hres⟩ | ⟨_, hres⟩ <;>
    simp only [Prod.mk.injEq] at hres
  · exact Or.inl ⟨hres.1, hres.2.2⟩
  · exact Or.inr ⟨hres.1, hres.2.1, hres.2.2⟩
  · exact Or.inl ⟨hres.1, hres.2.2⟩
  · exact Or.inl ⟨hres.1, hres.2.2⟩

theorem addCR_keeps_keys {w : KeyComponentWidget} {contrib : ChallengeResponseKey}
    {nk : CompositeKey} {old : Option ChallengeResponseKey} {ok : Bool}
    {nk2 : CompositeKey} {e2 : List Event}
    (h : addToCompositeKeyCR w contrib nk old = some (ok, nk2, e2)) : nk2.keys = nk.keys := by
  rcases addCR_cases h with ⟨_, _, _, hres⟩ | hres | ⟨kk, _, _, hres⟩ | ⟨_, hres⟩ <;>
    simp only [Prod.mk.injEq] at hres <;>
    obtain ⟨_, rfl, _⟩ := hres <;>
    simp [CompositeKey.addChallengeResponseKey]

theorem keyFilePhase_shape {s1 : SettingsState} {oldFile : Option Key}
    {oldCR : Option ChallengeResponseKey} {nk : CompositeKey} {evs : List Event}
    {out : SaveResult} (h : keyFilePhase s1 oldFile oldCR nk evs = some out) :
    PhaseOut s1 evs out := by
  unfold keyFilePhase at h
  cases hkf : addToCompositeKeyW s1.keyFileWidget ⟨KeyUuid.file, s1.keyFileWidget.newFactorId⟩
      nk oldFile with
  | none => rw [hkf] at h; cases h
  | some res =>
      rw [hkf] at h
      obtain ⟨ok, nk2, e2⟩ := res
      rcases addW_out hkf with ⟨rfl, rfl⟩ | ⟨rfl, rfl, rfl⟩
      · simp only [if_true] at h
        simpa using yubiPhase_shape h
      · simp only [Bool.false_eq_true, if_false] at h
        obtain rfl := Option.some.inj h
        exact Or.inr ⟨rfl, rfl, [], Event.componentError, by simp, rfl, by simp⟩

theorem qualityPhase_shape {s1 : SettingsState} {env : SaveEnv} {oldFile : Option Key}
    {oldCR : Option ChallengeResponseKey} {nk : CompositeKey} {evs : List Event}
    {out : SaveResult} (h : qualityPhase s1 env oldFile oldCR nk evs = some out) :
    PhaseOut s1 evs out := by
  unfold qualityPhase at h
  split at h
  · split at h
    · obtain rfl := Option.some.inj h
      exact Or.inr ⟨rfl, rfl, [], Event.msgWeakPasswordCritical, by simp, rfl, by simp⟩
    · split at h
      · split at h
        · refine PhaseOut.absorb ?_ (keyFilePhase_shape h)
          intro e he
          rw [List.mem_singleton] at he
          subst he
          rfl
        · obtain rfl := Option.some.inj h
          exact Or.inr ⟨rfl, rfl, [], Event.msgWeakPasswordWarning, by simp, rfl, by simp⟩
      · exact keyFilePhase_shape h
  · exact keyFilePhase_shape h

theorem passwordPhase_shape {s1 : SettingsState} {env : SaveEnv} {oldPw oldFile : Option Key}
    {oldCR : Option ChallengeResponseKey} {out : SaveResult}
    (h : passwordPhase s1 env oldPw oldFile oldCR = some out) : PhaseOut s1 [] out := by
  unfold passwordPhase at h
  split at h
  · split at h
    · have hq := qualityPhase_shape h
      refine PhaseOut.absorb (d := [Event.msgNoPassword true]) ?_ (by simpa using hq)
      intro e he
      rw [List.mem_singleton] at he
      subst he
      rfl
    · obtain rfl := Option.some.inj h
      exact Or.inr ⟨rfl, rfl, [], Event.msgNoPassword true, by simp, rfl, by simp⟩
  · cases hpw : addToCompositeKeyW s1.passwordWidget
        ⟨KeyUuid.password, s1.passwordWidget.newFactorId⟩ ⟨[], []⟩ oldPw with
    | none => rw [hpw] at h; cases h
    | some res =>
        rw [hpw] at h
        obtain ⟨ok, nk, e2⟩ := res
        rcases addW_out hpw with ⟨rfl, rfl⟩ | ⟨rfl, rfl, rfl⟩
        · simp only [if_true] at h
          exact qualityPhase_shape h
        · simp only [Bool.false_eq_true, if_false] at h
          obtain rfl := Option.some.inj h
          exact Or.inr ⟨rfl, rfl, [], Event.componentError, by simp, rfl, by simp⟩

theorem saveSettings_shape {s : SettingsState} {env : SaveEnv} {out : SaveResult}
    (h : saveSettings s env = some out) :
    (shortCircuits s = true ∧ out = ⟨true, { s with isDirty := computeDirty s }, []⟩) ∨
    (shortCircuits s = false ∧ ∃ ck, s.db.key = some ck ∧
      PhaseOut { s with isDirty := computeDirty s } [] out) := by
  unfold saveSettings at h
  split at h
  · rename_i hsc
    exact Or.inl ⟨hsc, (Option.some.inj h).symm⟩
  · rename_i hsc
    cases hdb : s.db.key with
    | none => rw [hdb] at h; cases h
    | some oldCk =>
        rw [hdb] at h
        exact Or.inr ⟨Bool.eq_false_iff.mpr hsc, oldCk, rfl, passwordPhase_shape h⟩

theorem lastWithUuid_spec {ks : List Key} {u : KeyUuid} {k : Key}
    (h : lastWithUuid ks u = some k) : k.uuid = u ∧ k ∈ ks := by
  suffices H : ∀ acc : Option Key,
      ks.foldl (fun acc k => if k.uuid = u then some k else acc) acc = some k →
      (acc = some k ∨ (k.uuid = u ∧ k ∈ ks)) by
    rcases H none h with h' | h'
    · cases h'
    · exact h'
  clear h
  induction ks with
  | nil => intro acc h'; exact Or.inl h'
  | cons x xs ih =>
      intro acc h'
      simp only [List.foldl_cons] at h'
      rcases ih _ h' with h'' | h''
      · by_cases hx : x.uuid = u
        · rw [if_pos hx] at h''
          obtain rfl := Option.some.inj h''
          exact Or.inr ⟨hx, List.mem_cons_self x xs⟩
        · rw [if_neg hx] at h''
          exact Or.inl h''
      · exact Or.inr ⟨h''.1, List.mem_cons_of_mem _ h''.2⟩

theorem commitPhase_setKey {s1 : SettingsState} {nk : CompositeKey} {evs : List Event}
    {out : SaveResult} {k : CompositeKey} {a b c : Bool}
    (h : commitPhase s1 nk evs = some out) (hset : Event.setKey k a b c ∈ out.events)
    (hpre : ∀ e ∈ evs, Event.isSetKey e = false) : k = nk := by
  unfold commitPhase at h
  split at h <;> obtain rfl := Option.some.inj h
  · simp only [List.mem_append, List.mem_singleton] at hset
    rcases hset with hset | hset
    · exact absurd (hpre _ hset) (by simp [Event.isSetKey])
    · exact absurd hset (by simp)
  · simp only [List.mem_append] at hset
    rcases hset with hset | hset
    · exact absurd (hpre _ hset) (by simp [Event.isSetKey])
    · rcases mem_commitSuffix.mp hset with he | he | he | ⟨_, he⟩
      · exact (Event.setKey.inj he).1
      · exact absurd he (by simp)
      · exact absurd he (by simp)
      · exact absurd he (by simp)

theorem yubiPhase_setKey {s1 : SettingsState} {oldCR : Option ChallengeResponseKey}
    {nk : CompositeKey} {evs : List Event} {out : SaveResult} {k : CompositeKey} {a b c : Bool}
    (h : yubiPhase s1 oldCR nk evs = some out) (hset : Event.setKey k a b c ∈ out.events)
    (hpre : ∀ e ∈ evs, Event.isSetKey e = false) : k.keys = nk.keys := by
  unfold yubiPhase at h
  cases hcr : addToCompositeKeyCR s1.yubiKeyWidget ⟨true, s1.yubiKeyWidget.newFactorId⟩ nk
      oldCR with
  | none => rw [hcr] at h; cases h
  | some res =>
      rw [hcr] at h
      obtain ⟨ok, nk2, e2⟩ := res
      rcases addCR_out hcr with ⟨rfl, rfl⟩ | ⟨rfl, rfl, rfl⟩
      · simp only [if_true] at h
        have hk := commitPhase_setKey h hset (by simpa using hpre)
        rw [hk]
        exact addCR_keeps_keys hcr
      · simp only [Bool.false_eq_true, if_false] at h
        obtain rfl := Option.some.inj h
        simp only [List.mem_append, List.mem_singleton] at hset
        rcases hset with hset | hset
        · exact absurd (hpre _ hset) (by simp [Event.isSetKey])
        · exact absurd hset (by simp)

theorem keyFilePhase_setKey {s1 : SettingsState} {oldFile : Option Key}
    {oldCR : Option ChallengeResponseKey} {nk : CompositeKey} {evs : List Event}
    {out : SaveResult} {k : CompositeKey} {a b c : Bool}
    (h : keyFilePhase s1 oldFile oldCR nk evs = some out)
    (hset : Event.setKey k a b c ∈ out.events)
    (hpre : ∀ e ∈ evs, Event.isSetKey e = false)
    (hof : ∀ kk, oldFile = some kk → kk.uuid = KeyUuid.file) :
    ∀ kk ∈ k.keys, kk ∈ nk.keys ∨ kk.uuid = KeyUuid.file := by
  unfold keyFilePhase at h
  cases hkf : addToCompositeKeyW s1.keyFileWidget ⟨KeyUuid.file, s1.keyFileWidget.newFactorId⟩
      nk oldFile with
  | none => rw [hkf] at h; cases h
  | some res =>
      rw [hkf] at h
      obtain ⟨ok, nk2, e2⟩ := res
      rcases addW_cases hkf with ⟨hpg, hv, ha2, hres⟩ | hres | ⟨kold, hold, hpg, hres⟩ |
          ⟨hpg, hres⟩ <;> simp only [Prod.mk.injEq] at hres
      · obtain ⟨rfl, rfl, rfl⟩ := hres
        simp only [if_true] at h
        have hk := yubiPhase_setKey h hset (by simpa using hpre)
        intro kk hkk
        rw [hk] at hkk
        simp only [CompositeKey.addKey, List.mem_append, List.mem_singleton] at hkk
        rcases hkk with hkk | rfl
        · exact Or.inl hkk
        · exact Or.inr rfl
      · obtain ⟨rfl, rfl, rfl⟩ := hres
        simp only [Bool.false_eq_true, if_false] at h
        obtain rfl := Option.some.inj h
        simp only [List.mem_append, List.mem_singleton] at hset
        rcases hset with hset | hset
        · exact absurd (hpre _ hset) (by simp [Event.isSetKey])
        · exact absurd hset (by simp)
      · obtain ⟨rfl, rfl, rfl⟩ := hres
        simp only [if_true] at h
        have hk := yubiPhase_setKey h hset (by simpa using hpre)
        intro kk hkk
        rw [hk] at hkk
        simp only [CompositeKey.addKey, List.mem_append, List.mem_singleton] at hkk
        rcases hkk with hkk | rfl
        · exact Or.inl hkk
        · exact Or.inr (hof _ hold)
      · obtain ⟨rfl, rfl, rfl⟩ := hres
        simp only [if_true] at h
        have hk := yubiPhase_setKey h hset (by simpa using hpre)
        intro kk hkk
        rw [hk] at hkk
        exact Or.inl hkk

theorem qualityPhase_setKey {s1 : SettingsState} {env : SaveEnv} {oldFile : Option Key}
    {oldCR : Option ChallengeResponseKey} {nk : CompositeKey} {evs : List Event}
    {out : SaveResult} {k : CompositeKey} {a b c : Bool}
    (h : qualityPhase s1 env oldFile oldCR nk evs = some out)
    (hset : Event.setKey k a b c ∈ out.events)
    (hpre : ∀ e ∈ evs, Event.isSetKey e = false)
    (hof : ∀ kk, oldFile = some kk → kk.uuid = KeyUuid.file) :
    ∀ kk ∈ k.keys, kk ∈ nk.keys ∨ kk.uuid = KeyUuid.file := by
  unfold qualityPhase at h
  split at h
  · split at h
    · obtain rfl := Option.some.inj h
      simp only [List.mem_append, List.mem_singleton] at hset
      rcases hset with hset | hset
      · exact absurd (hpre _ hset) (by simp [Event.isSetKey])
      · exact absurd hset (by simp)
    · split at h
      · split at h
        · refine keyFilePhase_setKey h hset ?_ hof
          intro e he
          rcases List.mem_append.mp he with he | he
          · exact hpre _ he
          · rw [List.mem_singleton] at he
            subst he
            rfl
        · obtain rfl := Option.some.inj h
          simp only [List.mem_append, List.mem_singleton] at hset
          rcases hset with hset | hset
          · exact absurd (hpre _ hset) (by simp [Event.isSetKey])
          · exact absurd hset (by simp)
      · exact keyFilePhase_setKey h hset hpre hof
  · exact keyFilePhase_setKey h hset hpre hof

/-- C10: `saveSettings` has an unstated precondition that the database holds a
composite-key object: when `m_db->key()` is null the short-circuit can never
fire (its first conjunct tests the pointer), and the snapshot loops then
dereference the null pointer unconditionally, so the operation is undefined
(`none`) for every environment. -/
theorem c10_null_key_precondition {s : SettingsState} {env : SaveEnv}
    (h : s.db.key = none) :
    shortCircuits s = false ∧ saveSettings s env = none := by
  have hsc : shortCircuits s = false := by
    unfold shortCircuits
    rw [h]
    simp
  refine ⟨hsc, ?_⟩
  unfold saveSettings
  rw [if_neg (by simp [hsc]), h]

def c10s : SettingsState :=
  { passwordWidget := ⟨Page.AddNew, true, false, true, true, 0, 0⟩,
    keyFileWidget := ⟨Page.AddNew, true, false, true, true, 0, 0⟩,
    yubiKeyWidget := ⟨Page.AddNew, true, false, true, true, 0, 0⟩,
    isDirty := false,
    db := ⟨none, 0⟩ }

theorem c10_null_key_witness :
    shortCircuits c10s = false ∧ saveSettings c10s ⟨0, true, true⟩ = none :=
  c10_null_key_precondition rfl

/-- C8: `discard` resets all component-added states and emits only
`editFinished(false)`: it never touches the database (hence never the current
key), never emits a `setKey`, quick-unlock reset or `markAsModified` call,
and leaves the dirty flag as it was. -/
theorem c8_discard_frame (s : SettingsState) :
    discard s = (resetFields s, [Event.editFinished false]) ∧
    (resetFields s).db = s.db ∧
    (resetFields s).isDirty = s.isDirty ∧
    (resetFields s).passwordWidget.added = false ∧
    (resetFields s).keyFileWidget.added = false ∧
    (resetFields s).yubiKeyWidget.added = false ∧
    (∀ e ∈ (discard s).2, Event.isSetKey e = false ∧ Event.isReset e = false ∧
      e ≠ Event.markAsModified) := by
  refine ⟨rfl, rfl, rfl, rfl, rfl, rfl, ?_⟩
  intro e he
  simp only [discard, List.mem_singleton] at he
  subst he
  exact ⟨rfl, rfl, by simp⟩

def c8s : SettingsState :=
  { passwordWidget := ⟨Page.LeaveOrRemove, true, true, true, true, 0, 0⟩,
    keyFileWidget := ⟨Page.LeaveOrRemove, true, true, true, true, 0, 0⟩,
    yubiKeyWidget := ⟨Page.AddNew, true, false, true, true, 0, 0⟩,
    isDirty := true,
    db := ⟨some ⟨[⟨KeyUuid.password, 1⟩], []⟩, 4⟩ }

theorem c8_discard_frame_witness :
    discard c8s = (resetFields c8s, [Event.editFinished false]) ∧
    (Event.isSetKey (Event.editFinished false) = false ∧
      Event.isReset (Event.editFinished false) = false ∧
      Event.editFinished false ≠ Event.markAsModified) :=
  ⟨(c8_discard_frame c8s).1,
   (c8_discard_frame c8s).2.2.2.2.2.2 (Event.editFinished false) (by decide)⟩

/-- C9: the dirty flag is never cleared by any operation of this widget:
`markDirty` sets it, `discard` and the field reset preserve it, and
`saveSettings` only ever raises it (its final state keeps the flag when it
was set); moreover once the flag is set the key-unchanged short-circuit can
no longer fire. -/
theorem c9_dirty_flag_monotone :
    (∀ s : SettingsState, (markDirty s).isDirty = true) ∧
    (∀ s : SettingsState, ((discard s).1).isDirty = s.isDirty) ∧
    (∀ s : SettingsState, (resetFields s).isDirty = s.isDirty) ∧
    (∀ (s : SettingsState) (env : SaveEnv) (out : SaveResult),
      saveSettings s env = some out → s.isDirty = true →
        out.state.isDirty = true ∧ shortCircuits s = false) := by
  refine ⟨fun s => rfl, fun s => rfl, fun s => rfl, ?_⟩
  intro s env out h hd
  have hcd : computeDirty s = true := by simp [computeDirty, hd]
  have hsc : shortCircuits s = false := by simp [shortCircuits, hcd]
  refine ⟨?_, hsc⟩
  rcases saveSettings_shape h with ⟨hsc', rfl⟩ | ⟨hsc', ck, hck, hph⟩
  · exact hcd
  · rcases hph with ⟨_, hst, _⟩ | ⟨_, hst, _⟩
    · rw [hst]
      exact hcd
    · rw [hst]
      exact hcd

def c9s : SettingsState :=
  { passwordWidget := ⟨Page.AddNew, true, false, true, true, 0, 0⟩,
    keyFileWidget := ⟨Page.AddNew, true, false, true, true, 0, 0⟩,
    yubiKeyWidget := ⟨Page.AddNew, true, false, true, true, 0, 0⟩,
    isDirty := true,
    db := ⟨some ⟨[], []⟩, 0⟩ }

def c9out : SaveResult :=
  ⟨false, c9s, [Event.msgNoPassword true, Event.msgNoEncryptionKey]⟩

theorem c9_dirty_flag_witness :
    (markDirty c9s).isDirty = true ∧ ((discard c9s).1).isDirty = c9s.isDirty ∧
    (c9out.state.isDirty = true ∧ shortCircuits c9s = false) :=
  ⟨c9_dirty_flag_monotone.1 c9s, c9_dirty_flag_monotone.2.1 c9s,
   c9_dirty_flag_monotone.2.2.2 c9s ⟨0, true, true⟩ c9out (by decide) (by decide)⟩

/-- C6: a component whose visible page is `LeaveOrRemove` (with the component
marked added and a matching old factor found by type identifier) is carried
into the new composite key as the identical old factor object — the very
shared pointer, no re-derivation — and a component in `AddNew` state
contributes nothing; the matching snapshot really returns a key of the
requested type identifier taken from the old key's list. -/
theorem c6_carry_over_identity (w : KeyComponentWidget) (contrib : Key) (nk : CompositeKey)
    (oldK : Option Key) (k : Key) (crContrib : ChallengeResponseKey)
    (oldCR : Option ChallengeResponseKey) (ckr : ChallengeResponseKey)
    (ks : List Key) (u : KeyUuid) (km : Key) :
    (w.added = true → w.page = Page.LeaveOrRemove → oldK = some k →
      addToCompositeKeyW w contrib nk oldK = some (true, nk.addKey k, [])) ∧
    (w.page = Page.AddNew → addToCompositeKeyW w contrib nk oldK = some (true, nk, [])) ∧
    (w.added = true → w.page = Page.LeaveOrRemove → oldCR = some ckr →
      addToCompositeKeyCR w crContrib nk oldCR =
        some (true, nk.addChallengeResponseKey ckr, [])) ∧
    (w.page = Page.AddNew → addToCompositeKeyCR w crContrib nk oldCR = some (true, nk, [])) ∧
    (lastWithUuid ks u = some km → km.uuid = u ∧ km ∈ ks) := by
  refine ⟨?_, ?_, ?_, ?_, fun hm => lastWithUuid_spec hm⟩
  · intro _ hp hkk
    simp [addToCompositeKeyW, hp, hkk]
  · intro hp
    simp [addToCompositeKeyW, hp]
  · intro _ hp hkk
    simp [addToCompositeKeyCR, hp, hkk]
  · intro hp
    simp [addToCompositeKeyCR, hp]

def c6w : KeyComponentWidget := ⟨Page.LeaveOrRemove, true, true, true, true, 0, 5⟩

def c6old : Key := ⟨KeyUuid.password, 7⟩

def c6list : List Key := [⟨KeyUuid.file, 1⟩, ⟨KeyUuid.password, 7⟩]

theorem c6_carry_over_witness :
    addToCompositeKeyW c6w ⟨KeyUuid.file, 9⟩ ⟨[], []⟩ (some c6old) =
      some (true, CompositeKey.addKey ⟨[], []⟩ c6old, []) ∧
    (c6old.uuid = KeyUuid.password ∧ c6old ∈ c6list) :=
  ⟨(c6_carry_over_identity c6w ⟨KeyUuid.file, 9⟩ ⟨[], []⟩ (some c6old) c6old ⟨true, 0⟩ none
      ⟨true, 0⟩ c6list KeyUuid.password c6old).1 (by decide) (by decide) rfl,
   (c6_carry_over_identity c6w ⟨KeyUuid.file, 9⟩ ⟨[], []⟩ (some c6old) c6old ⟨true, 0⟩ none
      ⟨true, 0⟩ c6list KeyUuid.password c6old).2.2.2.2 (by decide)⟩

theorem benign_filter_nil {mid : List Event} (hmid : ∀ e ∈ mid, benign e = true) :
    mid.filter Event.isSetKey = [] ∧ mid.filter Event.isReset = [] ∧
    Event.markAsModified ∉ mid ∧ Event.editFinished true ∉ mid := by
  refine ⟨?_, ?_, ?_, ?_⟩
  · rw [List.filter_eq_nil_iff]
    intro e he
    rw [(benign_not_special (hmid e he)).1]
    simp
  · rw [List.filter_eq_nil_iff]
    intro e he
    rw [(benign_not_special (hmid e he)).2.1]
    simp
  · intro hm
    exact (benign_not_special (hmid _ hm)).2.2.2.1 rfl
  · intro hm
    exact (benign_not_special (hmid _ hm)).2.2.2.2 true rfl

theorem commitSuffix_filters (s1 : SettingsState) (nk : CompositeKey) :
    (commitSuffix s1 nk).filter Event.isSetKey = [Event.setKey nk true false false] ∧
    (commitSuffix s1 nk).filter Event.isReset = [Event.quickUnlockReset s1.db.publicUuid] ∧
    Event.editFinished true ∈ commitSuffix s1 nk ∧
    (Event.markAsModified ∈ commitSuffix s1 nk ↔ s1.isDirty = true) := by
  cases hd : s1.isDirty <;>
    simp [commitSuffix, hd, Event.isSetKey, Event.isReset, List.filter_cons]

/-- C1: the zero-factor invariant.  Any `setKey` call emitted by a save
attempt installs a composite key with at least one factor key or one
challenge-response factor; if the "no encryption key" error is surfaced the
attempt returned false and emitted neither a `setKey` nor a quick-unlock
reset; and the final invariant check itself aborts exactly this way whenever
the assembled key has zero factor keys and zero challenge-response factors
(in particular even when the old key was empty, since nothing above depends
on the old key). -/
theorem c1_nonempty_key_invariant {s : SettingsState} {env : SaveEnv} {out : SaveResult}
    (h : saveSettings s env = some out) :
    (∀ k a b c, Event.setKey k a b c ∈ out.events →
      (k.keys ≠ [] ∨ k.challengeResponseKeys ≠ [])) ∧
    (Event.msgNoEncryptionKey ∈ out.events →
      out.ret = false ∧ ∀ e ∈ out.events, Event.isSetKey e = false ∧ Event.isReset e = false) ∧
    (∀ (s1 : SettingsState) (nk : CompositeKey) (evs : List Event),
      nk.keys = [] → nk.challengeResponseKeys = [] →
      commitPhase s1 nk evs = some ⟨false, s1, evs ++ [Event.msgNoEncryptionKey]⟩) := by
  refine ⟨?_, ?_, ?_⟩
  · intro k a b c hmem
    rcases saveSettings_shape h with ⟨_, rfl⟩ | ⟨_, ck, hck, hph⟩
    · simp at hmem
    · rcases hph with ⟨_, _, mid, nk, hmid, hnk, hev⟩ | ⟨_, _, mid, e, hmid, habort, hev⟩
      · rw [hev] at hmem
        simp only [List.nil_append, List.mem_append] at hmem
        rcases hmem with hmem | hmem
        · have hb := hmid _ hmem
          simp [benign] at hb
        · rcases mem_commitSuffix.mp hmem with he | he | he | ⟨_, he⟩
          · obtain rfl := (Event.setKey.inj he).1
            exact hnk
          · exact absurd he (by simp)
          · exact absurd he (by simp)
          · exact absurd he (by simp)
      · rw [hev] at hmem
        simp only [List.nil_append, List.mem_append, List.mem_singleton] at hmem
        rcases hmem with hmem | hmem
        · have hb := hmid _ hmem
          simp [benign] at hb
        · rw [← hmem] at habort
          simp [abortEvent] at habort
  · intro hne
    rcases saveSettings_shape h with ⟨_, rfl⟩ | ⟨_, ck, hck, hph⟩
    · simp at hne
    · rcases hph with ⟨hret, _, mid, nk, hmid, hnk, hev⟩ | ⟨hret, _, mid, e, hmid, habort, hev⟩
      · exfalso
        rw [hev] at hne
        simp only [List.nil_append, List.mem_append] at hne
        rcases hne with hne | hne
        · have hb := hmid _ hne
          simp [benign] at hb
        · rcases mem_commitSuffix.mp hne with he | he | he | ⟨_, he⟩ <;> simp at he
      · refine ⟨hret, ?_⟩
        intro e' he'
        rw [hev] at he'
        simp only [List.nil_append, List.mem_append, List.mem_singleton] at he'
        rcases he' with he' | rfl
        · have hb := benign_not_special (hmid _ he')
          exact ⟨hb.1, hb.2.1⟩
        · exact abort_not_special habort
  · intro s1 nk evs h1 h2
    simp [commitPhase, h1, h2]

def c1s : SettingsState :=
  { passwordWidget := ⟨Page.AddNew, true, false, true, true, 0, 0⟩,
    keyFileWidget := ⟨Page.AddNew, true, false, true, true, 0, 0⟩,
    yubiKeyWidget := ⟨Page.AddNew, true, false, true, true, 0, 0⟩,
    isDirty := false,
    db := ⟨some ⟨[], []⟩, 0⟩ }

def c1out : SaveResult :=
  ⟨false, c1s, [Event.msgNoPassword true, Event.msgNoEncryptionKey]⟩

theorem c1_nonempty_key_invariant_witness :
    c1out.ret = false ∧ Event.isSetKey (Event.msgNoPassword true) = false := by
  have H := c1_nonempty_key_invariant (show saveSettings c1s ⟨0, true, true⟩ = some c1out by decide)
  have H2 := H.2.1 (show Event.msgNoEncryptionKey ∈ c1out.events by decide)
  exact ⟨H2.1, (H2.2 (Event.msgNoPassword true)
    (show Event.msgNoPassword true ∈ c1out.events by decide)).1⟩

/-- C7: on every save that reaches the success path (returns true without the
key-unchanged short-circuit), the emitted trace is some accepted
confirmations followed exactly by `setKey(newKey, true, false, false)`, then
the quick-unlock reset for the database public UUID (each occurring exactly
once, the reset strictly after the installation), then `editFinished(true)`,
with `markAsModified` present if and only if the dirty flag was set; on every
aborted save (returns false) neither `setKey` nor the quick-unlock reset is
ever emitted. -/
theorem c7_commit_sequence {s : SettingsState} {env : SaveEnv} {out : SaveResult}
    (h : saveSettings s env = some out) :
    (out.ret = true → shortCircuits s = false →
      ∃ pre nk, (∀ e ∈ pre, benign e = true) ∧
        (nk.keys ≠ [] ∨ nk.challengeResponseKeys ≠ []) ∧
        out.events = pre ++ commitSuffix { s with isDirty := computeDirty s } nk ∧
        out.events.filter Event.isSetKey = [Event.setKey nk true false false] ∧
        out.events.filter Event.isReset = [Event.quickUnlockReset s.db.publicUuid] ∧
        Event.editFinished true ∈ out.events ∧
        (Event.markAsModified ∈ out.events ↔ computeDirty s = true)) ∧
    (out.ret = false →
      ∀ e ∈ out.events, Event.isSetKey e = false ∧ Event.isReset e = false) := by
  rcases saveSettings_shape h with ⟨hsc, rfl⟩ | ⟨hsc, ck, hck, hph⟩
  · refine ⟨?_, ?_⟩
    · intro _ hsc'
      rw [hsc] at hsc'
      cases hsc'
    · intro hret
      cases hret
  · rcases hph with ⟨hret, hst, mid, nk, hmid, hnk, hev⟩ |
        ⟨hret, hst, mid, e, hmid, habort, hev⟩
    · refine ⟨?_, ?_⟩
      · intro _ _
        obtain ⟨hf1, hf2, hf3, hf4⟩ := benign_filter_nil hmid
        obtain ⟨hg1, hg2, hg3, hg4⟩ :=
          commitSuffix_filters { s with isDirty := computeDirty s } nk
        refine ⟨mid, nk, hmid, hnk, by simpa using hev, ?_, ?_, ?_, ?_⟩
        · rw [hev]
          simp only [List.nil_append, List.filter_append, hf1, hg1, List.nil_append]
        · rw [hev]
          simp only [List.nil_append, List.filter_append, hf2, hg2, List.nil_append]
        · rw [hev]
          simp only [List.nil_append, List.mem_append]
          exact Or.inr hg3
        · rw [hev]
          simp only [List.nil_append, List.mem_append]
          constructor
          · intro hm
            rcases hm with hm | hm
            · exact absurd hm hf3
            · exact hg4.mp hm
          · intro hd
            exact Or.inr (hg4.mpr hd)
      · intro hfalse
        rw [hret] at hfalse
        cases hfalse
    · refine ⟨?_, ?_⟩
      · intro htrue _
        rw [hret] at htrue
        cases htrue
      · intro _ e' he'
        rw [hev] at he'
        simp only [List.nil_append, List.mem_append, List.mem_singleton] at he'
        rcases he' with he' | rfl
        · have hb := benign_not_special (hmid _ he')
          exact ⟨hb.1, hb.2.1⟩
        · exact abort_not_special habort

def c7s : SettingsState :=
  { passwordWidget := ⟨Page.LeaveOrRemove, false, true, true, true, 4, 0⟩,
    keyFileWidget := ⟨Page.AddNew, true, false, true, true, 0, 0⟩,
    yubiKeyWidget := ⟨Page.AddNew, true, false, true, true, 0, 0⟩,
    isDirty := true,
    db := ⟨some ⟨[⟨KeyUuid.password, 11⟩], []⟩, 5⟩ }

def c7out : SaveResult :=
  ⟨true, resetFields c7s,
    [Event.setKey ⟨[⟨KeyUuid.password, 11⟩], []⟩ true false false,
     Event.quickUnlockReset 5, Event.editFinished true, Event.markAsModified]⟩

theorem c7_commit_sequence_witness :
    c7out.events.filter Event.isSetKey =
      [Event.setKey ⟨[⟨KeyUuid.password, 11⟩], []⟩ true false false] ∧
    c7out.events.filter Event.isReset = [Event.quickUnlockReset 5] ∧
    Event.editFinished true ∈ c7out.events ∧
    (Event.markAsModified ∈ c7out.events ↔ computeDirty c7s = true) := by
  obtain ⟨pre, nk, hb, hnk, hev, h4, h5, h6, h7⟩ :=
    (c7_commit_sequence (show saveSettings c7s ⟨0, true, true⟩ = some c7out by decide)).1
      rfl (by decide)
  have hnkval : nk = ⟨[⟨KeyUuid.password, 11⟩], []⟩ := by
    have h8 : c7out.events.filter Event.isSetKey =
        [Event.setKey ⟨[⟨KeyUuid.password, 11⟩], []⟩ true false false] := by decide
    rw [h4] at h8
    exact (Event.setKey.inj (List.cons.inj h8).1).1
  refine ⟨?_, ?_, h6, h7⟩
  · rw [h4, hnkval]
  · rw [h5]
    rfl

theorem state_update_self {s : SettingsState} (h : computeDirty s = s.isDirty) :
    ({ s with isDirty := computeDirty s } : SettingsState) = s := by
  rw [h]

/-- C2 (amended): if no component's visible page is `Edit`, the session dirty
flag is not already set, and the current key's factor-key list is non-empty,
then `saveSettings` short-circuits: it returns true, leaves the state
unchanged and emits no events at all (in particular no `setKey`). -/
theorem c2_key_unchanged_short_circuit {s : SettingsState} {env : SaveEnv} {ck : CompositeKey}
    (h1 : s.isDirty = false) (h2 : s.passwordWidget.page ≠ Page.Edit)
    (h3 : s.keyFileWidget.page ≠ Page.Edit) (h4 : s.yubiKeyWidget.page ≠ Page.Edit)
    (h5 : s.db.key = some ck) (h6 : ck.keys ≠ []) :
    saveSettings s env = some ⟨true, s, []⟩ := by
  have hcd : computeDirty s = false := by
    simp [computeDirty, h1, h2, h3, h4]
  have hsc : shortCircuits s = true := by
    unfold shortCircuits
    rw [h5, hcd]
    cases hck : ck.keys with
    | nil => exact absurd hck h6
    | cons x xs => simp [hck]
  unfold saveSettings
  rw [if_pos hsc, state_update_self (by rw [hcd, h1])]

def c2ws : SettingsState :=
  { passwordWidget := ⟨Page.AddNew, true, true, true, true, 0, 0⟩,
    keyFileWidget := ⟨Page.AddNew, true, false, true, true, 0, 0⟩,
    yubiKeyWidget := ⟨Page.AddNew, true, false, true, true, 0, 0⟩,
    isDirty := false,
    db := ⟨some ⟨[⟨KeyUuid.password, 1⟩], []⟩, 0⟩ }

theorem c2_key_unchanged_witness :
    saveSettings c2ws ⟨0, true, true⟩ = some ⟨true, c2ws, []⟩ :=
  c2_key_unchanged_short_circuit (by decide) (by decide) (by decide) (by decide)
    (show c2ws.db.key = some ⟨[⟨KeyUuid.password, 1⟩], []⟩ from rfl) (by decide)

def c2cs : SettingsState :=
  { passwordWidget := ⟨Page.LeaveOrRemove, false, true, true, true, 4, 99⟩,
    keyFileWidget := ⟨Page.AddNew, true, false, true, true, 0, 0⟩,
    yubiKeyWidget := ⟨Page.AddNew, true, false, true, true, 0, 0⟩,
    isDirty := true,
    db := ⟨some ⟨[⟨KeyUuid.password, 7⟩], []⟩, 3⟩ }

theorem c2_dirty_flag_counterexample :
    c2cs.passwordWidget.page ≠ Page.Edit ∧ c2cs.keyFileWidget.page ≠ Page.Edit ∧
    c2cs.yubiKeyWidget.page ≠ Page.Edit ∧
    c2cs.db.key = some ⟨[⟨KeyUuid.password, 7⟩], []⟩ ∧
    saveSettings c2cs ⟨0, true, true⟩ =
      some ⟨true, resetFields c2cs,
        [Event.setKey ⟨[⟨KeyUuid.password, 7⟩], []⟩ true false false,
         Event.quickUnlockReset 3, Event.editFinished true, Event.markAsModified]⟩ := by
  decide

/-- C3 (amended): on a save attempt with a current key present, where the
password component is in `Edit` state with a non-empty input whose validation
and key contribution succeed, and whose measured quality is strictly below
the clamped configured minimum, `saveSettings` surfaces exactly the hard
"weak password" rejection and returns false — independently of both user
confirmation answers, and with no `setKey` emitted, so the old key stays
installed. -/
theorem c3_weak_password_hard_floor {s : SettingsState} {env : SaveEnv} {ck : CompositeKey}
    (hk : s.db.key = some ck) (hp : s.passwordWidget.page = Page.Edit)
    (he : s.passwordWidget.empty = false) (hv : s.passwordWidget.validateOk = true)
    (ha : s.passwordWidget.addOk = true)
    (hq : s.passwordWidget.passwordQuality < (qBound 0 env.minQualityConfig 4).toNat) :
    saveSettings s env =
      some ⟨false, { s with isDirty := true }, [Event.msgWeakPasswordCritical]⟩ := by
  have hcd : computeDirty s = true := by simp [computeDirty, hp]
  have hsc : shortCircuits s = false := by simp [shortCircuits, hcd]
  simp [saveSettings, hsc, hk, hcd, passwordPhase, hp, he, addToCompositeKeyW, hv, ha,
    qualityPhase, hq]

def c3ws : SettingsState :=
  { passwordWidget := ⟨Page.Edit, false, false, true, true, 0, 5⟩,
    keyFileWidget := ⟨Page.AddNew, true, false, true, true, 0, 0⟩,
    yubiKeyWidget := ⟨Page.AddNew, true, false, true, true, 0, 0⟩,
    isDirty := false,
    db := ⟨some ⟨[], []⟩, 0⟩ }

theorem c3_hard_floor_witness :
    saveSettings c3ws ⟨4, false, false⟩ =
      some ⟨false, { c3ws with isDirty := true }, [Event.msgWeakPasswordCritical]⟩ :=
  c3_weak_password_hard_floor (show c3ws.db.key = some ⟨[], []⟩ from rfl) rfl rfl rfl rfl
    (by decide)

def c3cs : SettingsState :=
  { passwordWidget := ⟨Page.Edit, false, false, false, true, 0, 5⟩,
    keyFileWidget := ⟨Page.AddNew, true, false, true, true, 0, 0⟩,
    yubiKeyWidget := ⟨Page.AddNew, true, false, true, true, 0, 0⟩,
    isDirty := true,
    db := ⟨some ⟨[], []⟩, 0⟩ }

theorem c3_validation_failure_counterexample :
    c3cs.passwordWidget.page = Page.Edit ∧ c3cs.passwordWidget.empty = false ∧
    c3cs.passwordWidget.passwordQuality < (qBound 0 (4 : Int) 4).toNat ∧
    saveSettings c3cs ⟨4, true, true⟩ = some ⟨false, c3cs, [Event.componentError]⟩ ∧
    Event.msgWeakPasswordCritical ∉ ([Event.componentError] : List Event) := by
  decide

/-- C4 (amended): on a save attempt with a current key present that is not
short-circuited by the key-unchanged check, if the password component is in
`AddNew` state or its input is empty then the very first emitted event is the
no-password confirmation with Cancel as the default button; if the user
declines, `saveSettings` returns false with only that event emitted (old key
untouched); and the workflow proceeds without a password factor: no installed
key can contain a password-typed factor key. -/
theorem c4_no_password_confirmation {s : SettingsState} {env : SaveEnv} {ck : CompositeKey}
    (hk : s.db.key = some ck) (hsc : shortCircuits s = false)
    (hcond : s.passwordWidget.page = Page.AddNew ∨ s.passwordWidget.empty = true) :
    (env.acceptNoPassword = false →
      saveSettings s env =
        some ⟨false, { s with isDirty := computeDirty s }, [Event.msgNoPassword true]⟩) ∧
    (∀ out, saveSettings s env = some out →
      out.events.head? = some (Event.msgNoPassword true)) ∧
    (∀ out, saveSettings s env = some out → ∀ k a b c, Event.setKey k a b c ∈ out.events →
      ∀ kk ∈ k.keys, kk.uuid ≠ KeyUuid.password) := by
  have hpcond : ((({ s with isDirty := computeDirty s } : SettingsState).passwordWidget.page ==
      Page.AddNew) ||
        ({ s with isDirty := computeDirty s } : SettingsState).passwordWidget.empty) = true := by
    rcases hcond with hc | hc <;> simp [hc]
  have hmain : saveSettings s env =
      passwordPhase { s with isDirty := computeDirty s } env
        (lastWithUuid ck.keys KeyUuid.password) (lastWithUuid ck.keys KeyUuid.file)
        (lastCR ck.challengeResponseKeys) := by
    simp [saveSettings, hsc, hk]
  refine ⟨?_, ?_, ?_⟩
  · intro hacc
    rw [hmain]
    unfold passwordPhase
    rw [if_pos hpcond, if_neg (by simp [hacc])]
  · intro out hout
    rw [hmain] at hout
    unfold passwordPhase at hout
    rw [if_pos hpcond] at hout
    by_cases hacc : env.acceptNoPassword = true
    · rw [if_pos hacc] at hout
      obtain ⟨tail, htail⟩ := (qualityPhase_shape hout).extend
      rw [htail]
      rfl
    · rw [if_neg hacc] at hout
      obtain rfl := Option.some.inj hout
      rfl
  · intro out hout k a b c hset
    rw [hmain] at hout
    unfold passwordPhase at hout
    rw [if_pos hpcond] at hout
    by_cases hacc : env.acceptNoPassword = true
    · rw [if_pos hacc] at hout
      have hpre : ∀ e ∈ [Event.msgNoPassword true], Event.isSetKey e = false := by
        intro e he
        rw [List.mem_singleton] at he
        subst he
        rfl
      have hof : ∀ kk, lastWithUuid ck.keys KeyUuid.file = some kk →
          kk.uuid = KeyUuid.file := by
        intro kk hkk
        exact (lastWithUuid_spec hkk).1
      have hcontent := qualityPhase_setKey hout hset hpre hof
      intro kk hkk
      rcases hcontent kk hkk with hkk' | hkk'
      · simp at hkk'
      · rw [hkk']
        decide
    · rw [if_neg hacc] at hout
      obtain rfl := Option.some.inj hout
      simp at hset

def c4ws : SettingsState :=
  { passwordWidget := ⟨Page.AddNew, true, false, true, true, 0, 0⟩,
    keyFileWidget := ⟨Page.Edit, false, false, true, true, 0, 8⟩,
    yubiKeyWidget := ⟨Page.AddNew, true, false, true, true, 0, 0⟩,
    isDirty := false,
    db := ⟨some ⟨[], []⟩, 2⟩ }

theorem c4_no_password_witness :
    saveSettings c4ws ⟨0, false, true⟩ =
      some ⟨false, { c4ws with isDirty := computeDirty c4ws }, [Event.msgNoPassword true]⟩ ∧
    (⟨false, { c4ws with isDirty := computeDirty c4ws },
        [Event.msgNoPassword true]⟩ : SaveResult).events.head? =
      some (Event.msgNoPassword true) := by
  have H := @c4_no_password_confirmation c4ws ⟨0, false, true⟩ ⟨[], []⟩ rfl (by decide)
    (Or.inl rfl)
  exact ⟨H.1 rfl, H.2.1 _ (H.1 rfl)⟩

def c4cs : SettingsState :=
  { passwordWidget := ⟨Page.AddNew, true, false, true, true, 0, 0⟩,
    keyFileWidget := ⟨Page.LeaveOrRemove, true, true, true, true, 0, 0⟩,
    yubiKeyWidget := ⟨Page.AddNew, true, false, true, true, 0, 0⟩,
    isDirty := false,
    db := ⟨some ⟨[⟨KeyUuid.file, 2⟩], []⟩, 0⟩ }

theorem c4_short_circuit_counterexample :
    c4cs.passwordWidget.page = Page.AddNew ∧
    saveSettings c4cs ⟨0, false, true⟩ = some ⟨true, c4cs, []⟩ := by
  decide

/-- C5 (amended): on a save attempt with a current key present, where the
password component is in `Edit` state with a non-empty input whose validation
and key contribution succeed, and whose quality is at or above the clamped
configured minimum but strictly below the `Good` threshold, the weak-password
warning is surfaced on every outcome; if the user declines, `saveSettings`
returns false with the warning as the last event (nothing installed); if the
user explicitly continues, the save proceeds past the gate into the
key-file component phase carrying the freshly added password factor. -/
theorem c5_weak_password_warning {s : SettingsState} {env : SaveEnv} {ck : CompositeKey}
    (hk : s.db.key = some ck) (hp : s.passwordWidget.page = Page.Edit)
    (he : s.passwordWidget.empty = false) (hv : s.passwordWidget.validateOk = true)
    (ha : s.passwordWidget.addOk = true)
    (hq1 : (qBound 0 env.minQualityConfig 4).toNat ≤ s.passwordWidget.passwordQuality)
    (hq2 : s.passwordWidget.passwordQuality < goodQuality) :
    (env.continueWeak = false →
      saveSettings s env =
        some ⟨false, { s with isDirty := true }, [Event.msgWeakPasswordWarning]⟩) ∧
    (env.continueWeak = true →
      saveSettings s env =
        keyFilePhase { s with isDirty := true } (lastWithUuid ck.keys KeyUuid.file)
          (lastCR ck.challengeResponseKeys)
          ⟨[⟨KeyUuid.password, s.passwordWidget.newFactorId⟩], []⟩
          [Event.msgWeakPasswordWarning]) ∧
    (∀ out, saveSettings s env = some out → Event.msgWeakPasswordWarning ∈ out.events) := by
  have hcd : computeDirty s = true := by simp [computeDirty, hp]
  have hsc : shortCircuits s = false := by simp [shortCircuits, hcd]
  have hmain : saveSettings s env =
      qualityPhase { s with isDirty := true } env (lastWithUuid ck.keys KeyUuid.file)
        (lastCR ck.challengeResponseKeys)
        ⟨[⟨KeyUuid.password, s.passwordWidget.newFactorId⟩], []⟩ [] := by
    simp [saveSettings, hsc, hk, hcd, passwordPhase, hp, he, addToCompositeKeyW, hv, ha,
      CompositeKey.addKey]
  have hnotlt : ¬ s.passwordWidget.passwordQuality <
      (qBound 0 env.minQualityConfig 4).toNat := Nat.not_lt.mpr hq1
  have hdecl : env.continueWeak = false →
      saveSettings s env =
        some ⟨false, { s with isDirty := true }, [Event.msgWeakPasswordWarning]⟩ := by
    intro hw
    rw [hmain]
    unfold qualityPhase
    rw [if_pos (by simp [he]), if_neg hnotlt, if_pos hq2, if_neg (by simp [hw])]
    rfl
  have hcont : env.continueWeak = true →
      saveSettings s env =
        keyFilePhase { s with isDirty := true } (lastWithUuid ck.keys KeyUuid.file)
          (lastCR ck.challengeResponseKeys)
          ⟨[⟨KeyUuid.password, s.passwordWidget.newFactorId⟩], []⟩
          [Event.msgWeakPasswordWarning] := by
    intro hw
    rw [hmain]
    unfold qualityPhase
    rw [if_pos (by simp [he]), if_neg hnotlt, if_pos hq2, if_pos (by simp [hw])]
    rfl
  refine ⟨hdecl, hcont, ?_⟩
  intro out hout
  by_cases hw : env.continueWeak = true
  · rw [hcont hw] at hout
    obtain ⟨tail, htail⟩ := (keyFilePhase_shape hout).extend
    rw [htail]
    simp
  · rw [hdecl (Bool.eq_false_iff.mpr hw)] at hout
    obtain rfl := Option.some.inj hout
    simp

def c5ws : SettingsState :=
  { passwordWidget := ⟨Page.Edit, false, false, true, true, 1, 6⟩,
    keyFileWidget := ⟨Page.AddNew, true, false, true, true, 0, 0⟩,
    yubiKeyWidget := ⟨Page.AddNew, true, false, true, true, 0, 0⟩,
    isDirty := false,
    db := ⟨some ⟨[], []⟩, 0⟩ }

theorem c5_weak_password_witness :
    saveSettings c5ws ⟨0, true, false⟩ =
      some ⟨false, { c5ws with isDirty := true }, [Event.msgWeakPasswordWarning]⟩ ∧
    Event.msgWeakPasswordWarning ∈
      (⟨false, { c5ws with isDirty := true },
        [Event.msgWeakPasswordWarning]⟩ : SaveResult).events := by
  have H := @c5_weak_password_warning c5ws ⟨0, true, false⟩ ⟨[], []⟩ rfl rfl rfl rfl rfl
    (by decide) (by decide)
  exact ⟨H.1 rfl, H.2.2 _ (H.1 rfl)⟩

def c5cs : SettingsState :=
  { passwordWidget := ⟨Page.Edit, false, false, false, true, 1, 6⟩,
    keyFileWidget := ⟨Page.AddNew, true, false, true, true, 0, 0⟩,
    yubiKeyWidget := ⟨Page.AddNew, true, false, true, true, 0, 0⟩,
    isDirty := true,
    db := ⟨some ⟨[], []⟩, 0⟩ }

theorem c5_validation_failure_counterexample :
    c5cs.passwordWidget.empty = false ∧
    (qBound 0 (0 : Int) 4).toNat ≤ c5cs.passwordWidget.passwordQuality ∧
    c5cs.passwordWidget.passwordQuality < goodQuality ∧
    saveSettings c5cs ⟨0, true, true⟩ = some ⟨false, c5cs, [Event.componentError]⟩ ∧
    Event.msgWeakPasswordWarning ∉ ([Event.componentError] : List Event) := by
  decide

end KpxcDbKey
